import Mathlib

/-!
Shallow embedding of the LDMX python configuration module
`src/Framework/python/ldmxcfg.py`.

Python objects are modelled as immutable Lean structures; the mutating
methods of the source become functions from a state to a new state.  The
class-wide slot `Process.lastProcess` is modelled as an explicit
`Option Process` argument (`none` when no `Process` has been constructed
yet); methods that mutate `Process.lastProcess.<field>` return the updated
`Process`.  Methods that `raise` are modelled with `Except String`, the
error value carrying the message of the raised exception.  Attribute
values attached dynamically through `setattr` are modelled as strings in
an association list that mirrors the insertion order of the instance
dictionary.
-/

namespace Ldmxcfg

/-- Model of the python `str.replace` method for a non-empty pattern:
every non-overlapping occurrence of `pat`, scanning left to right, is
replaced with `rep`.  The fuel argument starts at the length of the
string and dominates the number of characters still to be consumed, so
the `0, s => s` branch is unreachable at the call sites below. -/
def pyReplaceGo (pat rep : List Char) : Nat → List Char → List Char
  | _, [] => []
  | 0, s => s
  | f + 1, c :: rest =>
    if pat ≠ [] && pat.isPrefixOf (c :: rest) then
      rep ++ pyReplaceGo pat rep f (rest.drop (pat.length - 1))
    else
      c :: pyReplaceGo pat rep f rest

/-- Model of the python expression `s.replace(pat, rep)` (for the
non-empty patterns used by `addModule`). -/
def pyReplace (s pat rep : String) : String :=
  ⟨pyReplaceGo pat.data rep.data s.data.length s.data⟩

/-! ## Histograms (`EventProcessor.build1DHistogram`)

The module `LDMX.Framework.histogram` imported by `build1DHistogram` is
not part of this repository, so its two entry points are modelled from
the spec.  Bin edges are numbers; they are modelled as rationals. -/

/-- The `bins` argument of `build1DHistogram` is either a bin count or an
explicit list of bin edges (python passes an `int` or a `list`). -/
inductive Bins where
  | count (n : Nat)
  | edges (l : List ℚ)
deriving DecidableEq

/-- Modelled from the spec: `LDMX.Framework.histogram.uniform_binning`
is missing from the sources; per the spec a `(count, min, max)` triple is
converted to uniform edges, `count` of them spanning `[lo, hi]`. -/
def uniform_binning (n : Nat) (lo hi : ℚ) : List ℚ :=
  (List.range n).map (fun i => lo + (hi - lo) * i / ((n : ℚ) - 1))

/-- Modelled from the spec: the histogram descriptor object built by
`LDMX.Framework.histogram.histogram(name, xlabel, theBinEdges)`, which is
missing from the sources; it records its constructor arguments. -/
structure Histogram where
  name : String
  xlabel : String
  binEdges : Bins
deriving DecidableEq

/-! ## EventProcessor -/

/-- Which of the two documented concrete subclasses (`Producer`,
`Analyzer`) a processor descriptor was built through; only their
`__str__` methods differ. -/
inductive PKind where
  | producer
  | analyzer
deriving DecidableEq

/-- State of an `EventProcessor` python object: the attributes set by
`__init__` plus the dynamically `setattr`-ed configuration attributes
(`extra`, in insertion order, values modelled as strings). -/
structure EventProcessor where
  kind : PKind
  instanceName : String
  className : String
  histograms : List Histogram
  extra : List (String × String)
deriving DecidableEq

/-- Assignment into an association list with python `setattr` semantics:
an existing key keeps its position and gets the new value, a new key is
appended. -/
def assocSet : List (String × String) → String → String → List (String × String)
  | [], k, v => [(k, v)]
  | (k0, v0) :: rest, k, v =>
    if k0 = k then (k, v) :: rest else (k0, v0) :: assocSet rest k v

/-- Model of `setattr(instance, k, v)` on an `EventProcessor`: the two
string-valued constructor attributes can be overwritten, any other key
goes to the dynamic attribute list.  (Assigning to `histograms`, whose
value is not a string, is outside the modelled domain.) -/
def pySetAttr (ep : EventProcessor) (k v : String) : EventProcessor :=
  if k = "instanceName" then { ep with instanceName := v }
  else if k = "className" then { ep with className := v }
  else { ep with extra := assocSet ep.extra k v }

/-- `EventProcessor.build1DHistogram(name, xlabel, bins, xmin, xmax)`:
when both `xmin` and `xmax` are given the `bins` argument is converted
through `uniform_binning`, otherwise `bins` is used as the edges
unchanged; one histogram descriptor is appended.  Converting an explicit
edge list (both bounds given but `bins` a list) falls outside the
modelled domain of `uniform_binning` and is mapped to `none`. -/
def build1DHistogram (ep : EventProcessor) (name xlabel : String)
    (bins : Bins) (xmin xmax : Option ℚ) : Option EventProcessor :=
  match xmin, xmax with
  | some lo, some hi =>
    match bins with
    | .count n =>
        some { ep with histograms :=
          ep.histograms ++ [⟨name, xlabel, .edges (uniform_binning n lo hi)⟩] }
    | .edges _ => none
  | _, _ =>
      some { ep with histograms := ep.histograms ++ [⟨name, xlabel, bins⟩] }

/-! ## ConditionsObjectProvider -/

/-- State of a `ConditionsObjectProvider` python object; `extra` holds
attributes set by subclasses (for `RandomNumberSeedService`: `seedMode`
and `seed`), in insertion order, values modelled as strings. -/
structure ConditionsObjectProvider where
  objectName : String
  className : String
  tagName : String
  extra : List (String × String)
deriving DecidableEq

/-- `ConditionsObjectProvider.__eq__`: two providers are equal iff they
have the same `objectName` and the same `className`. -/
def copEq (a b : ConditionsObjectProvider) : Bool :=
  a.objectName == b.objectName && a.className == b.className

/-- `ConditionsObjectProvider.setTag(newtag)`. -/
def setTag (c : ConditionsObjectProvider) (newtag : String) : ConditionsObjectProvider :=
  { c with tagName := newtag }

/-! ## Process -/

/-- State of the `Process` python object (the attributes assigned in
`Process.__init__`).  The `randomNumberSeedService` attribute is not a
separate field: the python attribute aliases the provider object
registered in `conditionsObjectProviders` at construction. -/
structure Process where
  passName : String
  maxEvents : Int
  maxTriesPerEvent : Int
  run : Int
  inputFiles : List String
  outputFiles : List String
  sequence : List EventProcessor
  keep : List String
  libraries : List String
  skimDefaultIsKeep : Bool
  skimRules : List String
  logFrequency : Int
  termLogLevel : Int
  fileLogLevel : Int
  logFileName : String
  compressionSetting : Int
  histogramFile : String
  conditionsGlobalTag : String
  conditionsObjectProviders : List ConditionsObjectProvider
  tree_name : String
deriving DecidableEq

/-- `Process.addLibrary(lib)`: appends to the libraries list of the last
created process, raising when no process exists yet. -/
def addLibrary (g : Option Process) (lib : String) : Except String Process :=
  match g with
  | some p => .ok { p with libraries := p.libraries ++ [lib] }
  | none => .error "No Process object defined yet! You need to create a Process before creating any EventProcessors."

/-- `Process.addModule(module)`: normalizes the module name by replacing
path and namespace separators with underscores and delegates to
`addLibrary` with the installed-library path. -/
def addModule (g : Option Process) (module : String) : Except String Process :=
  addLibrary g
    ("@CMAKE_INSTALL_PREFIX@/lib/lib" ++ pyReplace (pyReplace module "/" "_") "::" "_" ++ ".so")

/-- The linear scan of `declareConditionsObjectProvider`: the first
provider equal to `c` is overwritten in place (the loop returns there),
otherwise `c` is appended at the end. -/
def replaceOrAppend (l : List ConditionsObjectProvider) (c : ConditionsObjectProvider) :
    List ConditionsObjectProvider :=
  match l with
  | [] => [c]
  | x :: xs => if copEq c x then c :: xs else x :: replaceOrAppend xs c

/-- `Process.declareConditionsObjectProvider(cop)`: raises when no
process exists; otherwise first stamps the tag of `cop` with the current
global tag of the process, then replaces the first already-declared
provider equal to it, or appends it. -/
def declareConditionsObjectProvider (g : Option Process)
    (cop : ConditionsObjectProvider) : Except String Process :=
  match g with
  | some p =>
      let stamped := setTag cop p.conditionsGlobalTag
      .ok { p with conditionsObjectProviders :=
              replaceOrAppend p.conditionsObjectProviders stamped }
  | none => .error "No Process object defined yet! You need to create a Process before declaring any ConditionsObjectProviders."

/-- `Process.setConditionsGlobalTag(tag)`: stores the tag on the process
and calls `setTag` on every provider currently registered. -/
def setConditionsGlobalTag (p : Process) (tag : String) : Process :=
  { p with conditionsGlobalTag := tag,
           conditionsObjectProviders :=
             p.conditionsObjectProviders.map (fun c => setTag c tag) }

/-- `Process.skimConsider(namePat)`: appends `namePat` and then the empty
string to the flat skim-rule list. -/
def skimConsider (p : Process) (namePat : String) : Process :=
  { p with skimRules := p.skimRules ++ [namePat, ""] }

/-- `Process.skimConsiderLabelled(namePat, labelPat)`: appends `namePat`
and then `labelPat` to the flat skim-rule list. -/
def skimConsiderLabelled (p : Process) (namePat labelPat : String) : Process :=
  { p with skimRules := p.skimRules ++ [namePat, labelPat] }

/-- The `RandomNumberSeedService` provider value as it stands when
`Process.__init__` returns: the constructor registers the object (which
the list element aliases) and then sets `seedMode` through `run()` with
`seed = -1`; its tag is stamped from the fresh global tag at
registration. -/
def rnssCOP : ConditionsObjectProvider :=
  { objectName := "RandomNumberSeedService"
    className := "framework::RandomNumberSeedService"
    tagName := ""
    extra := [("seedMode", "run"), ("seed", "-1")] }

/-- `Process.__init__(passName)`: raises when a process already exists;
otherwise builds the default state and lets the automatically created
`RandomNumberSeedService` self-register (its constructor calls
`Process.addModule` with its module and then
`Process.declareConditionsObjectProvider` on itself). -/
def processInit (g : Option Process) (passName : String) : Except String Process :=
  match g with
  | some _ => .error "Process object is already created! You can only create one Process object in a script."
  | none =>
    let p0 : Process :=
      { passName := passName, maxEvents := -1, maxTriesPerEvent := 1, run := -1
        inputFiles := [], outputFiles := [], sequence := [], keep := [], libraries := []
        skimDefaultIsKeep := true, skimRules := [], logFrequency := -1
        termLogLevel := 2, fileLogLevel := 0, logFileName := ""
        compressionSetting := 9, histogramFile := "", conditionsGlobalTag := "Default"
        conditionsObjectProviders := [], tree_name := "LDMX_Events" }
    match addModule (some p0) "Framework" with
    | .error e => .error e
    | .ok p1 =>
      match declareConditionsObjectProvider (some p1) rnssCOP with
      | .error e => .error e
      | .ok p2 => .ok p2

/-! ## EventProcessor.from_file

The filesystem facts consulted by `from_file` (existence and last
modification times of the source file and of its sibling compiled
library) and the exit status of the external `g++` invocation are passed
in as explicit data.  `pathlib` path handling is external to this
repository, so the resolved source path is given by its textual form,
its parent directory and its stem. -/

/-- The resolved source path seen by `from_file`: `path` is the textual
form of the argument (used in the error message), `dir` the parent
directory and `stem` the file name without its extension. -/
structure SourcePath where
  path : String
  dir : String
  stem : String
deriving DecidableEq

/-- Filesystem and compiler environment consulted by `from_file`. -/
structure FromFileFS where
  src_is_file : Bool
  src_mtime : Int
  lib_is_file : Bool
  lib_mtime : Int
  compiler_exit : Int
deriving DecidableEq

/-- The sibling compiled-library path `src.parent / f"lib{src.stem}.so"`. -/
def siblingLib (src : SourcePath) : String :=
  src.dir ++ "/lib" ++ src.stem ++ ".so"

/-- The condition of the recompilation branch of `from_file`:
`not lib.is_file() or src.stat().st_mtime > lib.stat().st_mtime`. -/
def needsRecompile (fs : FromFileFS) : Bool :=
  !fs.lib_is_file || decide (fs.src_mtime > fs.lib_mtime)

/-- The configuration-keyword loop at the end of `from_file`:
`for cfg_name, cfg_val in config_kwargs.items(): setattr(instance, cfg_name, cfg_val)`. -/
def applyKwargs (kwargs : List (String × String)) (e : EventProcessor) : EventProcessor :=
  kwargs.foldl (fun a kv => pySetAttr a kv.1 kv.2) e

/-- `EventProcessor.from_file(source_file, class_name, needs,
instance_name, compile_notice, **config_kwargs)`: raises when the source
file is not accessible; derives the class name (source stem by default)
and instance name (class name by default); recompiles through the
external compiler exactly when the library is absent or the source is
strictly newer, propagating a nonzero compiler exit as an exception
(`subprocess.run(..., check=True)`); then constructs the processor
(whose module name ends in `.so`, so its constructor calls
`Process.addLibrary` on the library path) and applies every
configuration keyword as a plain attribute assignment. -/
def from_file (g : Option Process) (fs : FromFileFS) (kind : PKind)
    (src : SourcePath) (class_name instance_name : Option String)
    (config_kwargs : List (String × String)) :
    Except String (Process × EventProcessor) :=
  if !fs.src_is_file then
    .error (src.path ++ " is not accessible.")
  else
    let class_name := class_name.getD src.stem
    let instance_name := instance_name.getD class_name
    let lib := siblingLib src
    if needsRecompile fs && decide (fs.compiler_exit ≠ 0) then
      .error "subprocess.CalledProcessError: command returned non-zero exit status"
    else
      match addLibrary g lib with
      | .error e => .error e
      | .ok p =>
        let base : EventProcessor :=
          { kind := kind, instanceName := instance_name
            className := class_name, histograms := [], extra := [] }
        .ok (p, applyKwargs config_kwargs base)

/-! ## String rendering (`__str__`)

The renderings are functions of the object state alone.  Two pieces of
behaviour that the python runtime leaves unspecified are modelled
deterministically: the repr of histogram descriptor objects (their class
lives in the absent `LDMX.Framework.histogram` module) renders from the
descriptor fields, and the iteration order of `set(self.libraries)` is
modelled as a deterministic de-duplication of the list. -/

/-- Python rendering of a list of already-rendered items. -/
def pyListStr (items : List String) : String :=
  "[" ++ String.intercalate ", " items ++ "]"

/-- Rendering of a `Bins` value. -/
def binsStr : Bins → String
  | .count n => toString n
  | .edges l => pyListStr (l.map (fun q => toString q))

/-- Modelled from the spec: the repr of a histogram descriptor of the
absent `LDMX.Framework.histogram` module, rendered deterministically
from its field values. -/
def histRepr (h : Histogram) : String :=
  "histogram(" ++ h.name ++ ", " ++ h.xlabel ++ ", " ++ binsStr h.binEdges ++ ")"

/-- The `"\n    k : v"` lines of a parameters block, one per entry of the
instance dictionary. -/
def paramsBlock (d : List (String × String)) : String :=
  d.foldl (fun m kv => m ++ "\n    " ++ kv.1 ++ " : " ++ kv.2) ""

/-- The instance dictionary of an `EventProcessor`, in attribute
insertion order, every value rendered with `str`. -/
def epDict (e : EventProcessor) : List (String × String) :=
  [("instanceName", e.instanceName), ("className", e.className),
   ("histograms", pyListStr (e.histograms.map histRepr))] ++ e.extra

/-- `Producer.__str__` and `Analyzer.__str__` (identical but for the
label); the instance dictionary is never empty, so the parameters block
is always present. -/
def epStr (e : EventProcessor) : String :=
  let label := match e.kind with
    | .producer => "Producer"
    | .analyzer => "Analyzer"
  "\n  " ++ label ++ "(" ++ e.instanceName ++ " of class " ++ e.className ++ ")"
    ++ "\n   Parameters:" ++ paramsBlock (epDict e)

/-- The instance dictionary of a `ConditionsObjectProvider`, in
attribute insertion order. -/
def copDict (c : ConditionsObjectProvider) : List (String × String) :=
  [("objectName", c.objectName), ("className", c.className),
   ("tagName", c.tagName)] ++ c.extra

/-- `ConditionsObjectProvider.__str__`; the instance dictionary is never
empty, so the parameters block is always present. -/
def copStr (c : ConditionsObjectProvider) : String :=
  "\n  ConditionsObjectProvider(" ++ c.objectName ++ " of class " ++ c.className
    ++ ", tag=\x27" ++ c.tagName ++ "\x27)"
    ++ "\n   Parameters:" ++ paramsBlock (copDict c)

/-- The view of the flat skim-rule list as (name pattern, label pattern)
pairs walked by the rendering loop `range(0, len(skimRules)-1, 2)`; a
trailing unpaired entry is not visited. -/
def skimPairs : List String → List (String × String)
  | a :: b :: rest => (a, b) :: skimPairs rest
  | _ => []

/-- One rendered skim-rule line. -/
def skimRuleLine (pr : String × String) : String :=
  if pr.2 = "" then
    "\n  Listen to hints from processors with names matching \x27" ++ pr.1 ++ "\x27"
  else
    "\n  Listen to hints with labels matching \x27" ++ pr.2
      ++ "\x27 from processors with names matching \x27" ++ pr.1 ++ "\x27"

/-- Deterministic de-duplication standing in for the iteration over
`set(self.libraries)` (each distinct library exactly once). -/
def pySet (l : List String) : List String := l.dedup

/-- `Process.__str__`: the multi-section report. -/
def processStr (p : Process) : String :=
  let m0 := "Process with pass name \x27" ++ p.passName ++ "\x27"
  let m1 := if p.run > 0 then m0 ++ "\n using run number " ++ toString p.run else m0
  let m2 :=
    if p.maxEvents > 0 then m1 ++ "\n Maximum events to process: " ++ toString p.maxEvents
    else m1 ++ "\n No limit on maximum events to process"
  let m3 :=
    if p.conditionsObjectProviders.length > 0 then
      p.conditionsObjectProviders.foldl (fun m c => m ++ copStr c)
        (m2 ++ "\n conditionsObjectProviders:\n")
    else m2
  let m4 := p.sequence.foldl (fun m e => m ++ epStr e) (m3 ++ "\n Processor sequence:")
  let m5 :=
    if p.inputFiles.length > 0 then
      if p.outputFiles.length = p.inputFiles.length then
        (p.inputFiles.zip p.outputFiles).foldl
          (fun m io => m ++ "\n  \x27" ++ io.1 ++ "\x27 -> \x27" ++ io.2 ++ "\x27")
          (m4 ++ "\n Files:")
      else
        let mi := p.inputFiles.foldl (fun m f => m ++ "\n  " ++ f) (m4 ++ "\n Input files:")
        if p.outputFiles.length > 0 then mi ++ "\n Output file: " ++ p.outputFiles.headD ""
        else mi
    else if p.outputFiles.length > 0 then m4 ++ "\n Output file: " ++ p.outputFiles.headD ""
    else m4
  let m6 := m5 ++ "\n Skim rules:"
  let m7 :=
    if p.skimDefaultIsKeep then m6 ++ "\n  Default: keep the event"
    else m6 ++ "\n  Default: drop the event"
  let m8 := (skimPairs p.skimRules).foldl (fun m pr => m ++ skimRuleLine pr) m7
  let m9 :=
    if p.keep.length > 0 then
      p.keep.foldl (fun m r => m ++ "\n  " ++ r)
        (m8 ++ "\n Rules for keeping previous products:")
    else m8
  if p.libraries.length > 0 then
    (pySet p.libraries).foldl (fun m f => m ++ "\n  " ++ f)
      (m9 ++ "\n Shared libraries to load:")
  else m9

/-! ## Sample states used by the witness theorems -/

/-- A concrete process state with the constructor defaults and empty
registration lists. -/
def procEx : Process :=
  { passName := "test", maxEvents := -1, maxTriesPerEvent := 1, run := -1
    inputFiles := [], outputFiles := [], sequence := [], keep := [], libraries := []
    skimDefaultIsKeep := true, skimRules := [], logFrequency := -1
    termLogLevel := 2, fileLogLevel := 0, logFileName := ""
    compressionSetting := 9, histogramFile := "", conditionsGlobalTag := "Default"
    conditionsObjectProviders := [], tree_name := "LDMX_Events" }

/-- A concrete conditions object provider. -/
def copEx : ConditionsObjectProvider :=
  { objectName := "EcalGeometry", className := "ecal::EcalGeometryProvider"
    tagName := "", extra := [] }

/-- A concrete process state with one registered provider and a
duplicated library entry. -/
def procEx2 : Process :=
  { procEx with
    conditionsObjectProviders := [setTag copEx "Default"]
    libraries := ["libA.so", "libA.so", "libB.so"] }

/-- A concrete event processor. -/
def epEx : EventProcessor :=
  { kind := .analyzer, instanceName := "myAna", className := "MyAnalyzer"
    histograms := [], extra := [] }

/-- A concrete process state differing from `procEx2` only in fields the
report of `__str__` does not mention. -/
def procEx3 : Process :=
  { procEx2 with termLogLevel := 4, logFileName := "out.log"
                 conditionsGlobalTag := "other" }

/-- A concrete resolved source path. -/
def srcEx : SourcePath :=
  { path := "MyAnalyzer.cxx", dir := "/home/user", stem := "MyAnalyzer" }

/-- A concrete filesystem state whose compiled library is exactly as new
as its source, with a nonzero compiler exit status that must therefore
never be consulted. -/
def fsFresh : FromFileFS :=
  { src_is_file := true, src_mtime := 100, lib_is_file := true
    lib_mtime := 100, compiler_exit := 77 }

/-! ## Helper lemmas -/

/-- Stamping the tag does not change what a provider is equal to. -/
theorem copEq_setTag (c x : ConditionsObjectProvider) (t : String) :
    copEq (setTag c t) x = copEq c x := rfl

/-- When no already-declared provider is equal to `c`, the scan of
`declareConditionsObjectProvider` appends `c` at the end. -/
theorem replaceOrAppend_no_match (l : List ConditionsObjectProvider)
    (c : ConditionsObjectProvider) (h : ∀ x ∈ l, copEq c x = false) :
    replaceOrAppend l c = l ++ [c] := by
  induction l with
  | nil => rfl
  | cons x xs ih =>
    have hx := h x (by simp)
    simp [replaceOrAppend, hx, ih (fun y hy => h y (by simp [hy]))]

/-- The provider passed to the scan always ends up in the resulting
list, whether it replaced an equal one or was appended. -/
theorem mem_replaceOrAppend (l : List ConditionsObjectProvider)
    (c : ConditionsObjectProvider) : c ∈ replaceOrAppend l c := by
  induction l with
  | nil => simp [replaceOrAppend]
  | cons x xs ih =>
    by_cases hx : copEq c x = true
    · simp [replaceOrAppend, hx]
    · simp only [replaceOrAppend, hx, if_false, Bool.false_eq_true, List.mem_cons]
      exact Or.inr ih

/-- When the first provider equal to `c` sits at index `i`, the scan
replaces exactly that position: the length and every other position are
unchanged. -/
theorem replaceOrAppend_first_match (l : List ConditionsObjectProvider)
    (c : ConditionsObjectProvider) :
    ∀ (i : Nat) (ci : ConditionsObjectProvider),
      l[i]? = some ci → copEq c ci = true →
      (∀ j cj, j < i → l[j]? = some cj → copEq c cj = false) →
      (replaceOrAppend l c).length = l.length ∧
      (replaceOrAppend l c)[i]? = some c ∧
      ∀ j, j ≠ i → (replaceOrAppend l c)[j]? = l[j]? := by
  induction l with
  | nil => intro i ci hci _ _; simp at hci
  | cons x xs ih =>
    intro i ci hci hmatch hfirst
    by_cases hx : copEq c x = true
    · have hi0 : i = 0 := by
        by_contra hne
        obtain ⟨i', rfl⟩ := Nat.exists_eq_succ_of_ne_zero hne
        have hx0 := hfirst 0 x (Nat.succ_pos i') (by simp)
        rw [hx] at hx0
        exact Bool.noConfusion hx0
      subst hi0
      simp only [replaceOrAppend, hx, if_true]
      refine ⟨by simp, by simp, ?_⟩
      intro j hj
      obtain ⟨j', rfl⟩ := Nat.exists_eq_succ_of_ne_zero hj
      simp
    · cases i with
      | zero =>
        simp only [List.getElem?_cons_zero, Option.some_inj] at hci
        subst hci
        exact absurd hmatch hx
      | succ i' =>
        simp only [List.getElem?_cons_succ] at hci
        have hfirst' : ∀ j cj, j < i' → xs[j]? = some cj → copEq c cj = false := by
          intro j cj hj hcj
          exact hfirst (j + 1) cj (by omega) (by simpa using hcj)
        obtain ⟨hlen, hget, hother⟩ := ih i' ci hci hmatch hfirst'
        simp only [replaceOrAppend, hx, if_false, Bool.false_eq_true]
        refine ⟨by simp [hlen], by simpa using hget, ?_⟩
        intro j hj
        cases j with
        | zero => simp
        | succ j' =>
          simp only [List.getElem?_cons_succ]
          exact hother j' (by omega)

/-- Assigning a key that is not present appends it at the end of the
attribute list. -/
theorem assocSet_of_not_mem (l : List (String × String)) (k v : String)
    (h : k ∉ l.map Prod.fst) : assocSet l k v = l ++ [(k, v)] := by
  induction l with
  | nil => rfl
  | cons kv rest ih =>
    simp only [List.map_cons, List.mem_cons] at h
    push_neg at h
    have hne : ¬ kv.1 = k := fun he => h.1 he.symm
    simp [assocSet, hne, ih h.2]

/-- Applying configuration keywords whose keys are fresh (pairwise
distinct, absent from the current dynamic attributes, and not the names
of the constructor string attributes) appends them in order and changes
nothing else about the processor. -/
theorem applyKwargs_fresh (kwargs : List (String × String)) :
    ∀ e : EventProcessor,
      ((e.extra.map Prod.fst) ++ (kwargs.map Prod.fst)).Nodup →
      (∀ kv ∈ kwargs, kv.1 ≠ "instanceName" ∧ kv.1 ≠ "className") →
      (applyKwargs kwargs e).kind = e.kind ∧
      (applyKwargs kwargs e).instanceName = e.instanceName ∧
      (applyKwargs kwargs e).className = e.className ∧
      (applyKwargs kwargs e).histograms = e.histograms ∧
      (applyKwargs kwargs e).extra = e.extra ++ kwargs := by
  induction kwargs with
  | nil => intro e _ _; exact ⟨rfl, rfl, rfl, rfl, by simp [applyKwargs]⟩
  | cons kv rest ih =>
    intro e hnd hb
    have hbkv := hb kv (by simp)
    have hknotin : kv.1 ∉ e.extra.map Prod.fst := by
      rw [List.nodup_append] at hnd
      exact fun hin => hnd.2.2 hin (by simp)
    have hstep : pySetAttr e kv.1 kv.2 = { e with extra := e.extra ++ [kv] } := by
      simp only [pySetAttr, hbkv.1, hbkv.2, if_false]
      rw [assocSet_of_not_mem _ _ _ hknotin]
    have hrest : applyKwargs (kv :: rest) e = applyKwargs rest { e with extra := e.extra ++ [kv] } := by
      simp only [applyKwargs, List.foldl_cons, hstep]
    have hnd' : (({ e with extra := e.extra ++ [kv] } : EventProcessor).extra.map Prod.fst
        ++ rest.map Prod.fst).Nodup := by
      simpa [List.append_assoc] using hnd
    obtain ⟨g1, g2, g3, g4, g5⟩ := ih { e with extra := e.extra ++ [kv] } hnd'
      (fun x hx => hb x (by simp [hx]))
    rw [hrest]
    exact ⟨g1, g2, g3, g4, by simp [g5]⟩

/-! ## Claim theorems -/

/-- C1: for every process `p` and provider `c`,
`declareConditionsObjectProvider` first stamps the tag of `c` with the
current global tag of `p`; the stamped provider then replaces the first
already-declared provider equal to it (same `objectName` and
`className`) at its existing index, leaving the length of the list and
every other position unchanged, or is appended at the end when no equal
provider exists; nothing else about the process changes. -/
theorem declareCOP_replace_or_append (p : Process) (c : ConditionsObjectProvider) :
    ∃ q : Process,
      declareConditionsObjectProvider (some p) c = Except.ok q ∧
      (setTag c p.conditionsGlobalTag).tagName = p.conditionsGlobalTag ∧
      q = { p with conditionsObjectProviders := q.conditionsObjectProviders } ∧
      ((∀ x ∈ p.conditionsObjectProviders, copEq c x = false) →
        q.conditionsObjectProviders
          = p.conditionsObjectProviders ++ [setTag c p.conditionsGlobalTag]) ∧
      (∀ (i : Nat) (ci : ConditionsObjectProvider),
        p.conditionsObjectProviders[i]? = some ci → copEq c ci = true →
        (∀ (j : Nat) (cj : ConditionsObjectProvider), j < i →
          p.conditionsObjectProviders[j]? = some cj → copEq c cj = false) →
        q.conditionsObjectProviders.length = p.conditionsObjectProviders.length ∧
        q.conditionsObjectProviders[i]? = some (setTag c p.conditionsGlobalTag) ∧
        ∀ j : Nat, j ≠ i → q.conditionsObjectProviders[j]? = p.conditionsObjectProviders[j]?) := by
  refine ⟨{ p with conditionsObjectProviders :=
      replaceOrAppend p.conditionsObjectProviders (setTag c p.conditionsGlobalTag) },
    rfl, rfl, rfl, ?_, ?_⟩
  · intro h
    exact replaceOrAppend_no_match _ _ (fun x hx => by rw [copEq_setTag]; exact h x hx)
  · intro i ci hci hmatch hfirst
    exact replaceOrAppend_first_match p.conditionsObjectProviders
      (setTag c p.conditionsGlobalTag) i ci hci
      (by rw [copEq_setTag]; exact hmatch)
      (fun j cj hj hcj => by rw [copEq_setTag]; exact hfirst j cj hj hcj)

/-- Witness for C1: declaring a provider equal to the one already
registered in `procEx2` replaces it at index 0 and keeps the length. -/
theorem declareCOP_replace_or_append_witness :
    ∃ q : Process,
      declareConditionsObjectProvider (some procEx2) copEx = Except.ok q ∧
      q.conditionsObjectProviders.length = 1 ∧
      q.conditionsObjectProviders[0]? = some (setTag copEx "Default") := by
  obtain ⟨q, hq, _, _, _, hrep⟩ := declareCOP_replace_or_append procEx2 copEx
  obtain ⟨hlen, hget, _⟩ := hrep 0 (setTag copEx "Default") (by decide) (by decide)
    (fun j cj hj _ => absurd hj (Nat.not_lt_zero j))
  exact ⟨q, hq, by rw [hlen]; rfl, hget⟩

/-- C2: constructing a `Process` while the class-wide `lastProcess` slot
already holds one raises, for any pass name. -/
theorem processInit_second_raises (p : Process) (passName : String) :
    processInit (some p) passName
      = Except.error "Process object is already created! You can only create one Process object in a script." := rfl

/-- C3: when no `Process` has been created yet, `addLibrary`,
`addModule` and `declareConditionsObjectProvider` raise for any
argument; each raises before touching anything, and the error result
carries no process state, so no registration state is left behind. -/
theorem noProcess_registration_raises (lib module : String)
    (c : ConditionsObjectProvider) :
    addLibrary none lib = Except.error "No Process object defined yet! You need to create a Process before creating any EventProcessors." ∧
    addModule none module = Except.error "No Process object defined yet! You need to create a Process before creating any EventProcessors." ∧
    declareConditionsObjectProvider none c = Except.error "No Process object defined yet! You need to create a Process before declaring any ConditionsObjectProviders." :=
  ⟨rfl, rfl, rfl⟩

/-- C4: with an existing process, the three spellings of the module name
all append the identical installed-library path, obtained by replacing
the path and namespace separators with underscores. -/
theorem addModule_separator_normalization (p : Process) :
    addModule (some p) "Ecal/Event"
      = Except.ok { p with libraries := p.libraries ++ ["@CMAKE_INSTALL_PREFIX@/lib/libEcal_Event.so"] } ∧
    addModule (some p) "Ecal::Event"
      = Except.ok { p with libraries := p.libraries ++ ["@CMAKE_INSTALL_PREFIX@/lib/libEcal_Event.so"] } ∧
    addModule (some p) "Ecal_Event"
      = Except.ok { p with libraries := p.libraries ++ ["@CMAKE_INSTALL_PREFIX@/lib/libEcal_Event.so"] } :=
  ⟨rfl, rfl, rfl⟩

/-- C5: `setConditionsGlobalTag` stores the tag on the process and
stamps it onto every currently registered provider (pointwise, keeping
length and order); a provider declared afterwards is stored stamped with
the tag that is current at that declaration. -/
theorem setConditionsGlobalTag_spec (p : Process) (t : String) :
    (setConditionsGlobalTag p t).conditionsGlobalTag = t ∧
    (setConditionsGlobalTag p t).conditionsObjectProviders.length
      = p.conditionsObjectProviders.length ∧
    (∀ i : Nat, (setConditionsGlobalTag p t).conditionsObjectProviders[i]?
      = (p.conditionsObjectProviders[i]?).map (fun c => setTag c t)) ∧
    (∀ c ∈ (setConditionsGlobalTag p t).conditionsObjectProviders, c.tagName = t) ∧
    (∀ c : ConditionsObjectProvider, ∃ q : Process,
      declareConditionsObjectProvider (some (setConditionsGlobalTag p t)) c
        = Except.ok q ∧
      setTag c t ∈ q.conditionsObjectProviders) := by
  refine ⟨rfl, by simp [setConditionsGlobalTag], ?_, ?_, ?_⟩
  · intro i
    simp [setConditionsGlobalTag]
  · intro c hc
    simp only [setConditionsGlobalTag, List.mem_map] at hc
    obtain ⟨c0, _, rfl⟩ := hc
    rfl
  · intro c
    exact ⟨_, rfl, mem_replaceOrAppend _ _⟩

/-- Witness for C5: the tag and the stamped provider at concrete
inputs. -/
theorem setConditionsGlobalTag_witness :
    (setConditionsGlobalTag procEx2 "newTag").conditionsGlobalTag = "newTag" ∧
    (setTag (setTag copEx "Default") "newTag").tagName = "newTag" := by
  obtain ⟨h1, _, _, h4, _⟩ := setConditionsGlobalTag_spec procEx2 "newTag"
  exact ⟨h1, h4 _ (by decide)⟩

/-- C6: from an empty skim-rule list, `skimConsider "foo"` then
`skimConsiderLabelled "bar" "baz"` yields the pairs
`[("foo", ""), ("bar", "baz")]` in that order; in general each helper
appends its (name, label) entries after the existing flat rules,
removing none, with `skimConsider` recording the empty label. -/
theorem skimRules_append_spec (p q : Process) (n l : String)
    (h : p.skimRules = []) :
    skimPairs (skimConsiderLabelled (skimConsider p "foo") "bar" "baz").skimRules
      = [("foo", ""), ("bar", "baz")] ∧
    (skimConsider q n).skimRules = q.skimRules ++ [n, ""] ∧
    (skimConsiderLabelled q n l).skimRules = q.skimRules ++ [n, l] := by
  refine ⟨?_, rfl, rfl⟩
  simp [skimConsider, skimConsiderLabelled, h, skimPairs]

/-- Witness for C6 at a concrete process with no skim rules. -/
theorem skimRules_append_witness :
    skimPairs (skimConsiderLabelled (skimConsider procEx "foo") "bar" "baz").skimRules
      = [("foo", ""), ("bar", "baz")] :=
  (skimRules_append_spec procEx procEx "a" "b" rfl).1

/-- C7: `build1DHistogram` with the triple `(10, 0., 1.)` appends
exactly one histogram descriptor whose edges are the ten uniform edges
spanning `[0, 1]`, and with the explicit edge list `[0., 0.5, 1.]`
appends exactly one descriptor carrying that list unchanged; no other
attribute of the processor changes (the result is the processor with
only the appended histogram). -/
theorem build1DHistogram_spec (ep : EventProcessor) :
    build1DHistogram ep "h" "x" (.count 10) (some 0) (some 1)
      = some { ep with histograms :=
          ep.histograms ++ [⟨"h", "x", .edges (uniform_binning 10 0 1)⟩] } ∧
    uniform_binning 10 0 1 = [0, 1/9, 2/9, 1/3, 4/9, 5/9, 2/3, 7/9, 8/9, 1] ∧
    build1DHistogram ep "h" "x" (.edges [0, 1/2, 1]) none none
      = some { ep with histograms := ep.histograms ++ [⟨"h", "x", .edges [0, 1/2, 1]⟩] } := by
  refine ⟨rfl, ?_, rfl⟩
  simp [uniform_binning, List.range_succ]
  norm_num

/-- C10: when at most one of `xmin` and `xmax` is provided — in
particular when exactly one is — `bins` is stored as the bin edges
unchanged and no uniform-binning conversion happens; the conversion is
reached only when both are provided. -/
theorem build1DHistogram_single_bound (ep : EventProcessor)
    (name xlabel : String) (bins : Bins) (xmin xmax : Option ℚ)
    (h : xmin = none ∨ xmax = none) :
    build1DHistogram ep name xlabel bins xmin xmax
      = some { ep with histograms := ep.histograms ++ [⟨name, xlabel, bins⟩] } := by
  rcases h with rfl | rfl
  · cases xmax <;> rfl
  · cases xmin <;> rfl

/-- Witness for C10: an explicit edge list with only `xmin` provided is
stored unchanged. -/
theorem build1DHistogram_single_bound_witness :
    build1DHistogram epEx "h" "x" (.edges [0, 1/2, 1]) (some 0) none
      = some { epEx with histograms :=
          epEx.histograms ++ [⟨"h", "x", .edges [0, 1/2, 1]⟩] } :=
  build1DHistogram_single_bound epEx "h" "x" (.edges [0, 1/2, 1]) (some 0) none
    (Or.inr rfl)

/-- C8: `from_file` raises when the source file does not exist; when the
sibling compiled library exists with modification time at least that of
the source, the recompile branch is not taken and the result does not
depend on the compiler at all (the library is reused); when the library
is absent or the source strictly newer, the compiler runs and a nonzero
exit raises; on success the library path is registered with the process
and the processor defaults its class name to the source stem, its
instance name to the class name, and carries every configuration keyword
applied as a plain attribute assignment. -/
theorem from_file_spec (p : Process) (fs : FromFileFS) (kind : PKind)
    (src : SourcePath) (cn inn : Option String)
    (kwargs : List (String × String)) :
    (fs.src_is_file = false →
      from_file (some p) fs kind src cn inn kwargs
        = Except.error (src.path ++ " is not accessible.")) ∧
    (fs.lib_is_file = true → fs.src_mtime ≤ fs.lib_mtime →
      needsRecompile fs = false ∧
      ∀ e : Int,
        from_file (some p) { fs with compiler_exit := e } kind src cn inn kwargs
          = from_file (some p) fs kind src cn inn kwargs) ∧
    (fs.src_is_file = true → needsRecompile fs = true → fs.compiler_exit ≠ 0 →
      from_file (some p) fs kind src cn inn kwargs
        = Except.error "subprocess.CalledProcessError: command returned non-zero exit status") ∧
    (fs.src_is_file = true → (needsRecompile fs = true → fs.compiler_exit = 0) →
      ∃ ep : EventProcessor,
        from_file (some p) fs kind src cn inn kwargs
          = Except.ok ({ p with libraries := p.libraries ++ [siblingLib src] }, ep) ∧
        ((kwargs.map Prod.fst).Nodup →
          (∀ kv ∈ kwargs, kv.1 ≠ "instanceName" ∧ kv.1 ≠ "className") →
          ep.className = cn.getD src.stem ∧
          ep.instanceName = inn.getD (cn.getD src.stem) ∧
          ep.histograms = [] ∧
          ep.extra = kwargs)) := by
  refine ⟨?_, ?_, ?_, ?_⟩
  · intro hsrc
    simp [from_file, hsrc]
  · intro hlib hle
    have hnr : needsRecompile fs = false := by
      simp [needsRecompile, hlib, Int.not_lt.mpr hle]
    refine ⟨hnr, fun e => ?_⟩
    have hnr2 : needsRecompile { fs with compiler_exit := e } = false := hnr
    simp only [from_file, hnr, hnr2, Bool.false_and]
  · intro hsrc hnr hexit
    simp [from_file, hsrc, hnr, hexit]
  · intro hsrc himp
    have hcond : (needsRecompile fs && decide (fs.compiler_exit ≠ 0)) = false := by
      cases hnr : needsRecompile fs
      · simp
      · simp [himp hnr]
    refine ⟨applyKwargs kwargs
      { kind := kind, instanceName := inn.getD (cn.getD src.stem)
        className := cn.getD src.stem, histograms := [], extra := [] }, ?_, ?_⟩
    · simp only [from_file, hsrc, hcond, addLibrary]
      simp [from_file, hsrc, hcond, addLibrary]
    · intro hnd hb
      obtain ⟨_, g2, g3, g4, g5⟩ := applyKwargs_fresh kwargs
        { kind := kind, instanceName := inn.getD (cn.getD src.stem)
          className := cn.getD src.stem, histograms := [], extra := [] }
        (by simpa using hnd) hb
      exact ⟨g3, g2, g4, by simpa using g5⟩

/-- Witness for C8: with the library as fresh as the source, the
compiler exit status (here nonzero) is never consulted; the processor
takes the source stem as class and instance name and the keyword is
applied. -/
theorem from_file_witness :
    needsRecompile fsFresh = false ∧
    ∃ ep : EventProcessor,
      from_file (some procEx) fsFresh .analyzer srcEx none none [("verbose", "1")]
        = Except.ok ({ procEx with
            libraries := procEx.libraries ++ [siblingLib srcEx] }, ep) ∧
      ep.className = "MyAnalyzer" ∧ ep.instanceName = "MyAnalyzer" ∧
      ep.extra = [("verbose", "1")] := by
  obtain ⟨_, h2, _, h4⟩ :=
    from_file_spec procEx fsFresh .analyzer srcEx none none [("verbose", "1")]
  obtain ⟨hnr, _⟩ := h2 rfl (by decide)
  obtain ⟨ep, hok, hfresh⟩ := h4 rfl (fun hc => by rw [hnr] at hc; exact Bool.noConfusion hc)
  obtain ⟨hcn, hin, _, hex⟩ := hfresh (by decide) (by decide)
  exact ⟨hnr, ep, hok, hcn, hin, hex⟩

/-- C9: `Process.__str__` is a deterministic function of the reported
configuration state: two processes agreeing on the reported fields (pass
name, run number, event limit, conditions providers, processor sequence,
file lists, skim default and rules, keep rules, libraries) render the
identical multi-section report whatever their remaining fields hold, and
the deduplicated libraries section lists every added library exactly
once however many times it was added. -/
theorem processStr_deterministic (p q : Process)
    (h1 : p.passName = q.passName) (h2 : p.run = q.run)
    (h3 : p.maxEvents = q.maxEvents)
    (h4 : p.conditionsObjectProviders = q.conditionsObjectProviders)
    (h5 : p.sequence = q.sequence) (h6 : p.inputFiles = q.inputFiles)
    (h7 : p.outputFiles = q.outputFiles)
    (h8 : p.skimDefaultIsKeep = q.skimDefaultIsKeep)
    (h9 : p.skimRules = q.skimRules) (h10 : p.keep = q.keep)
    (h11 : p.libraries = q.libraries) :
    processStr p = processStr q ∧
    ∀ lib ∈ p.libraries, (pySet p.libraries).count lib = 1 := by
  constructor
  · unfold processStr
    rw [h1, h2, h3, h4, h5, h6, h7, h8, h9, h10, h11]
  · intro lib hmem
    unfold pySet
    rw [List.count_dedup]
    simp [hmem]

/-- Witness for C9: a process and a variant differing only in fields the
report does not mention (log levels, log file, global tag) render the
same string, and the duplicated library appears once. -/
theorem processStr_deterministic_witness :
    processStr procEx2 = processStr procEx3 ∧
    (pySet procEx2.libraries).count "libA.so" = 1 := by
  obtain ⟨hd, hc⟩ := processStr_deterministic procEx2 procEx3
    rfl rfl rfl rfl rfl rfl rfl rfl rfl rfl rfl
  exact ⟨hd, hc "libA.so" (by decide)⟩

end Ldmxcfg
